import Mathlib

/-!
Verification development for the bayesian-flashcards repository.

The repository ships the Electron wrapper (main process, preload script),
a React Native macOS shell, and a frontend debug patch; the Python backend
implementing the MemoryModel / Scheduler / SessionManager core is not part
of the source tree, so that core is modelled from the specification.
Definitions taken from JavaScript sources are shallow embeddings of the
corresponding functions; promises are modelled by their settled outcome.
-/

namespace BayesFlashcards

/-! ### Electron main process: startBackend (src/unnamed/part_000, lines 28-111) -/

/-- Outcome of the HTTP health check issued 3 seconds after spawning the
backend: an HTTP response with some status code, a request-level connection
error, or the 5-second request timeout. -/
inductive HealthResult where
  | status (code : Nat)
  | connError
  | timedOut
deriving DecidableEq

/-- Environment observed by one run of startBackend: whether the executable
exists at the computed path, whether spawn returned a process object (in
Node, spawn always does; the code nevertheless tests it), whether the child
process emitted an error event before the health check settled the promise,
and the result of the health check. -/
structure BackendEnv where
  fileExists : Bool
  spawnedProcess : Bool
  processErrorBeforeHealth : Bool
  health : HealthResult
deriving DecidableEq

/-- Settled state of the promise returned by startBackend. -/
inductive StartOutcome where
  | resolved
  | rejectedMissingFile
  | rejectedSpawnFailed
  | rejectedProcessError
  | rejectedBadStatus (code : Nat)
deriving DecidableEq

/-- Shallow embedding of startBackend: reject synchronously when the
executable is missing (the later development fallback branch is dead code,
since it is guarded by the same existence test); reject if spawn yielded no
process; reject on a process error event; then the health check resolves on
a 200 response, rejects on any other status code, and resolves on a request
error or on the request timeout. -/
def startBackend (env : BackendEnv) : StartOutcome :=
  if !env.fileExists then .rejectedMissingFile
  else if !env.spawnedProcess then .rejectedSpawnFailed
  else if env.processErrorBeforeHealth then .rejectedProcessError
  else
    match env.health with
    | .status code => if code = 200 then .resolved else .rejectedBadStatus code
    | .connError => .resolved
    | .timedOut => .resolved

/-- True for every rejected settled state of the startBackend promise. -/
def isRejected : StartOutcome → Bool
  | .resolved => false
  | _ => true

/-! ### Electron preload script (src/unnamed/part_001) -/

/-- Settled state of a JavaScript promise carrying a value of type a. -/
inductive JsPromise (a : Type) where
  | resolved (value : a)
  | rejected
deriving DecidableEq

/-- Shallow embedding of electronAPI.checkActiveSession from the preload
script: the thunk ignores all application state and returns
Promise.resolve(false). -/
def checkActiveSession (_call : Unit) : JsPromise Bool :=
  .resolved false

/-! ### Frontend debug patch (src/frontend/debug-patch.js) -/

/-- Result of the awaited axios POST to the sessions endpoint: a response
with success true carrying session data, a response with success false, or
a thrown request error. -/
inductive ApiResult where
  | success (sessionData : Nat)
  | failure
  | requestError
deriving DecidableEq

/-- Slice of the React component state touched by
startStudySessionWithLogging: the current view, the selected deck, the
current session, the timer, the log of POST request payloads sent to the
sessions endpoint, and the number of alert dialogs shown. -/
structure AppState where
  view : String
  currentDeck : String
  currentSession : Option Nat
  timerRunning : Bool
  timerValue : Nat
  posts : List (String × Option String)
  alerts : Nat
  nextCardRequested : Bool
deriving DecidableEq

/-- Shallow embedding of startStudySessionWithLogging. The prompt result is
none when the user cancelled (null in JavaScript); an empty entered name is
sent as undefined. On cancellation the view is set to decks and the
function returns before any POST. Otherwise the POST is issued; on a
success response the session is stored, the view becomes review, the timer
is reset and started and the next card is requested; on a failure response
an alert is shown; on a thrown request error an alert is shown and the view
is set back to decks. -/
def startStudySessionWithLogging (sessionName : Option String) (api : ApiResult)
    (st : AppState) : AppState :=
  match sessionName with
  | none => { st with view := "decks" }
  | some name =>
    let st1 := { st with
      posts := st.posts ++ [(st.currentDeck, if name = "" then none else some name)] }
    match api with
    | .success sess =>
        { st1 with currentSession := some sess, view := "review",
                   timerValue := 0, nextCardRequested := true, timerRunning := true }
    | .failure => { st1 with alerts := st1.alerts + 1 }
    | .requestError => { st1 with alerts := st1.alerts + 1, view := "decks" }

/-! ### MemoryModel (spec section 4.1) -/

/-- Modelled from the spec: the Python backend holding the Card record is
missing from the source tree. A card carries its Beta posterior parameters
alpha and beta and its personalized decay-rate estimate; identifiers,
content, timestamps and counters play no role in the modelled claims. -/
structure Card where
  alpha : ℝ
  beta : ℝ
  decayRate : ℝ

/-- Modelled from the spec: review outcomes are recognized grades (success
or failure of recall) or an unrecognized grade, which update rejects. -/
inductive Outcome where
  | success
  | failure
  | unrecognized
deriving DecidableEq

/-- True exactly for the recognized grades. -/
def Outcome.recognized : Outcome → Bool
  | .success => true
  | .failure => true
  | .unrecognized => false

/-- Errors of MemoryModel.update per the spec's failure contract. -/
inductive MMError where
  | InvalidOutcome
  | StaleCard
deriving DecidableEq

/-- Modelled from the spec: the exact recency-weight formula and the
decay-rate re-estimation formula are left as tunable configuration (the
spec's section 9 open question), so they are fields here. recencyWeight
maps the elapsed time to the increment scale; decayEstimate recomputes the
card's decay rate from the updated card and the elapsed time. -/
structure MMConfig where
  recencyWeight : ℝ → ℝ
  decayEstimate : Card → ℝ → ℝ

/-- Modelled from the spec: MemoryModel.update, missing from the source
tree. It fails with InvalidOutcome on an unrecognized grade and with
StaleCard on negative elapsed time; otherwise on success alpha is
incremented by one scaled by the recency weight, on failure beta is, and
the decay rate is re-estimated. -/
noncomputable def update (cfg : MMConfig) (c : Card) (outcome : Outcome) (elapsed : ℝ) :
    Except MMError Card :=
  if outcome.recognized = false then .error .InvalidOutcome
  else if elapsed < 0 then .error .StaleCard
  else
    let w := cfg.recencyWeight elapsed
    let c1 :=
      match outcome with
      | .success => { c with alpha := c.alpha + w }
      | _ => { c with beta := c.beta + w }
    .ok { c1 with decayRate := cfg.decayEstimate c1 elapsed }

/-- Applies one review to the card; a failed update mutates nothing per the
spec error contract, so the card is returned unchanged. -/
noncomputable def applyReview (cfg : MMConfig) (c : Card) (r : Outcome × ℝ) : Card :=
  match update cfg c r.1 r.2 with
  | .ok c1 => c1
  | .error _ => c

/-- Applies a whole sequence of reviews in order. -/
noncomputable def applyReviews (cfg : MMConfig) (c : Card) (rs : List (Outcome × ℝ)) : Card :=
  List.foldl (applyReview cfg) c rs

/-- Posterior mean of the card's Beta posterior. -/
noncomputable def posteriorMean (c : Card) : ℝ :=
  c.alpha / (c.alpha + c.beta)

/-- Modelled from the spec: MemoryModel.recall_probability, missing from
the source tree: the forgetting curve posterior_mean times
exp(-decay_rate * t). -/
noncomputable def recall_probability (c : Card) (t : ℝ) : ℝ :=
  posteriorMean c * Real.exp (-c.decayRate * t)

/-! ### Scheduler (spec section 4.2) -/

/-- Modelled from the spec: the scheduler's tunable configuration — the
desirable-difficulty target probability and the interval clamp bounds. -/
structure SchedConfig where
  target_p : ℝ
  min_interval : ℝ
  max_interval : ℝ

/-- Modelled from the spec: Scheduler.next_interval, missing from the
source tree. When the posterior mean is at most the target the card is due
again at the minimum interval; otherwise the closed-form inversion
ln(posterior_mean / target_p) / decay_rate is clamped to the configured
interval bounds. -/
noncomputable def next_interval (cfg : SchedConfig) (c : Card) : ℝ :=
  if posteriorMean c ≤ cfg.target_p then cfg.min_interval
  else
    max cfg.min_interval
      (min cfg.max_interval (Real.log (posteriorMean c / cfg.target_p) / c.decayRate))

/-! ### SessionManager state machine (spec section 4.3) -/

/-- Modelled from the spec: the session state machine's states. -/
inductive SessState where
  | Idle
  | Active
  | BreakSuggested
  | RescueMode
  | Ended
deriving DecidableEq

/-- Session-scoped errors relevant to the modelled claims. -/
inductive SessError where
  | SessionStateError
deriving DecidableEq

/-- A recorded review: outcome and the response latency expressed as its
z-score deviation above the card's historical baseline. Rationals stand in
for the backend's clock and latency values. -/
structure Review where
  outcome : Bool
  latencyZ : ℚ
deriving DecidableEq

/-- Modelled from the spec: the session manager's tunable configuration —
the fatigue sliding-window size (default 5 reviews), the accuracy threshold
(default one half), the latency z-score threshold, the rescue-mode cooldown
in reviews (default 3), and the idle timeout duration. -/
structure SessConfig where
  windowSize : Nat
  accThreshold : ℚ
  zThreshold : ℚ
  cooldownReviews : Nat
  idleTimeout : ℚ
deriving DecidableEq

/-- Modelled from the spec: the Session record fields the state machine
reads and writes — current state, the review events (most recent first),
the time of the last review event, start and end times, the rescue-mode
activation count, and the remaining rescue cooldown in reviews. -/
structure Session where
  state : SessState
  events : List Review
  lastEventTime : ℚ
  startTime : ℚ
  endTime : Option ℚ
  rescueCount : Nat
  cooldownLeft : Nat
deriving DecidableEq

/-- Accuracy over a window of reviews: fraction of successful outcomes. -/
def windowAccuracy (w : List Review) : ℚ :=
  ((w.filter (fun r => r.outcome)).length : ℚ) / (w.length : ℚ)

/-- Average latency z-score over a window of reviews. -/
def windowAvgZ (w : List Review) : ℚ :=
  (w.map (fun r => r.latencyZ)).sum / (w.length : ℚ)

/-- Modelled from the spec: the fatigue trigger — over the last windowSize
reviews (only once that many exist), accuracy is below the threshold and
the average latency z-score exceeds the threshold. -/
def fatigueTriggered (cfg : SessConfig) (evs : List Review) : Bool :=
  let w := evs.take cfg.windowSize
  decide (cfg.windowSize ≤ w.length)
    && decide (windowAccuracy w < cfg.accThreshold)
    && decide (cfg.zThreshold < windowAvgZ w)

/-- Modelled from the spec: the state update performed when a review is
recorded on a non-terminal session. The event is prepended and the last
event time advanced; from Active or BreakSuggested the fatigue trigger
moves the session into RescueMode with a fresh cooldown (BreakSuggested
otherwise returns to Active on the next review event); in RescueMode the
cooldown is consumed, after which fatigue is re-evaluated: still fatigued
re-triggers RescueMode, recovered returns to Active. -/
def reviewStep (cfg : SessConfig) (s : Session) (r : Review) (now : ℚ) : Session :=
  let base := { s with events := r :: s.events, lastEventTime := now }
  match s.state with
  | .RescueMode =>
      if 1 < s.cooldownLeft then { base with cooldownLeft := s.cooldownLeft - 1 }
      else if fatigueTriggered cfg base.events then
        { base with state := .RescueMode, rescueCount := s.rescueCount + 1,
                    cooldownLeft := cfg.cooldownReviews }
      else { base with state := .Active, cooldownLeft := 0 }
  | _ =>
      if fatigueTriggered cfg base.events then
        { base with state := .RescueMode, rescueCount := s.rescueCount + 1,
                    cooldownLeft := cfg.cooldownReviews }
      else { base with state := .Active }

/-- Modelled from the spec: submit_review — an operation invalid for the
current state (an Ended or not-yet-started session) fails with
SessionStateError and mutates nothing; otherwise the review is recorded. -/
def submit_review (cfg : SessConfig) (s : Session) (r : Review) (now : ℚ) :
    Except SessError Session :=
  if s.state = .Ended ∨ s.state = .Idle then .error .SessionStateError
  else .ok (reviewStep cfg s r now)

/-- Submits a scripted list of timed reviews in order, stopping at the
first error. -/
def submitAll (cfg : SessConfig) (s : Session) (rs : List (Review × ℚ)) :
    Except SessError Session :=
  match rs with
  | [] => .ok s
  | (r, t) :: rest => do
    let s1 ← submit_review cfg s r t
    submitAll cfg s1 rest

/-- The non-terminal in-session states: Active, BreakSuggested, RescueMode. -/
def SessState.activeish (st : SessState) : Prop :=
  st = .Active ∨ st = .BreakSuggested ∨ st = .RescueMode

/-- Modelled from the spec: the lazy status check evaluating the idle
timeout — when more than the configured idle duration has passed since the
last review event, the session transitions to Ended and its end time is
set; an already Ended session is immutable. -/
def checkStatus (cfg : SessConfig) (s : Session) (now : ℚ) : Session :=
  if s.state = .Ended then s
  else if cfg.idleTimeout < now - s.lastEventTime then
    { s with state := .Ended, endTime := some now }
  else s

/-! ### Scheduler queue interface (spec sections 4.2 and 6) -/

/-- Modelled from the spec: the result of asking the Scheduler for the next
card — a card identifier, or the normal terminal signal NoCardsDue. -/
inductive NextCardResult where
  | card (id : Nat)
  | noCardsDue
deriving DecidableEq

/-- Modelled from the spec: Scheduler.get_next_card over the ranked due
set, missing from the source tree — it yields NoCardsDue exactly on an
empty due set, as a signal value rather than a thrown exception. -/
def get_next_card (due : List Nat) : NextCardResult :=
  match due with
  | [] => .noCardsDue
  | c :: _ => .card c

/-- Modelled from the spec: the SessionManager handling of get_next_card —
invalid in a terminal or not-yet-started state; otherwise NoCardsDue from
the Scheduler is treated as a normal terminal condition that ends the
session (never an exception path), and a card is served unchanged. -/
def managerNextCard (s : Session) (due : List Nat) (now : ℚ) :
    Except SessError (Session × NextCardResult) :=
  if s.state = .Ended ∨ s.state = .Idle then .error .SessionStateError
  else
    match get_next_card due with
    | .noCardsDue => .ok ({ s with state := .Ended, endTime := some now }, .noCardsDue)
    | .card c => .ok (s, .card c)

/-! ## Theorems -/

/-- Claim C9: checkActiveSession exposed on electronAPI resolves to false on
every call, regardless of any actual study-session state, so the wrapper's
navigation guard never detects an active session. -/
theorem checkActiveSession_always_false (u : Unit) :
    checkActiveSession u = .resolved false := rfl

/-- Claim C10: in startStudySessionWithLogging, whenever the session-name
prompt returns null (user cancelled), the function returns after setting
the view to decks without issuing the session-creation POST request,
leaving the current session and timer state unchanged. -/
theorem cancelled_prompt_only_sets_view (api : ApiResult) (st : AppState) :
    startStudySessionWithLogging none api st = { st with view := "decks" } := rfl

/-- Claim C8, counterexample: with the executable present, no process
error, and the health check answering with HTTP status 500, startBackend
rejects — so it does not reject only on a missing file or process error,
and a failing health response does not always resolve. -/
theorem startBackend_rejects_on_bad_status :
    startBackend ⟨true, true, false, .status 500⟩ = .rejectedBadStatus 500
      ∧ (BackendEnv.mk true true false (.status 500)).fileExists = true
      ∧ (BackendEnv.mk true true false (.status 500)).processErrorBeforeHealth = false :=
  ⟨rfl, rfl, rfl⟩

/-- Claim C8, amended: given that spawn yielded a process object (in Node
it always does), startBackend rejects exactly when the executable file is
absent, the process emitted an error before the promise settled, or the
health check answered with a non-200 HTTP status; a connection-level error
or a timeout of the health request still resolves. -/
theorem startBackend_reject_iff (env : BackendEnv) (hspawn : env.spawnedProcess = true) :
    isRejected (startBackend env) = true ↔
      env.fileExists = false ∨ env.processErrorBeforeHealth = true
        ∨ ∃ code, env.health = .status code ∧ code ≠ 200 := by
  obtain ⟨fe, sp, pe, h⟩ := env
  dsimp only at hspawn
  subst hspawn
  cases fe <;> cases pe <;> cases h <;>
      simp only [startBackend, isRejected, Bool.not_true, Bool.not_false] <;>
      simp
  all_goals
    rename_i code
    by_cases hc : code = 200 <;> simp [hc, isRejected]

/-- Witness for the amended claim C8 at a concrete environment. -/
theorem startBackend_reject_iff_witness :
    isRejected (startBackend (BackendEnv.mk true true false (.status 500))) = true ↔
      (BackendEnv.mk true true false (.status 500)).fileExists = false
        ∨ (BackendEnv.mk true true false (.status 500)).processErrorBeforeHealth = true
        ∨ ∃ code, (BackendEnv.mk true true false (.status 500)).health = .status code
            ∧ code ≠ 200 :=
  startBackend_reject_iff _ rfl

/-- Claim C4: for every card, recall_probability at elapsed time zero
equals the posterior mean alpha / (alpha + beta) exactly. -/
theorem recall_probability_at_zero (c : Card) :
    recall_probability c 0 = c.alpha / (c.alpha + c.beta) := by
  unfold recall_probability posteriorMean
  simp

/-- Claim C3: for every card with posterior mean at most the target
probability, next_interval returns the configured minimum interval. -/
theorem next_interval_min_when_hard (cfg : SchedConfig) (c : Card)
    (h : posteriorMean c ≤ cfg.target_p) :
    next_interval cfg c = cfg.min_interval := by
  unfold next_interval
  rw [if_pos h]

/-- Witness for claim C3: a new card with alpha = beta = 1 has posterior
mean one half, below the default target of 0.8, so the minimum interval is
returned. -/
theorem next_interval_min_when_hard_witness :
    next_interval ⟨4/5, 1, 100⟩ ⟨1, 1, 1⟩ = 1 :=
  next_interval_min_when_hard ⟨4/5, 1, 100⟩ ⟨1, 1, 1⟩ (by norm_num [posteriorMean])

/-- One successful or failed review never pushes alpha or beta below the
uninformative prior floor, since the recency-weighted increment is
nonnegative and a rejected update mutates nothing. -/
lemma applyReview_floor (cfg : MMConfig) (hw : ∀ t : ℝ, 0 ≤ cfg.recencyWeight t)
    (c : Card) (hc : 1 ≤ c.alpha ∧ 1 ≤ c.beta) (r : Outcome × ℝ) :
    1 ≤ (applyReview cfg c r).alpha ∧ 1 ≤ (applyReview cfg c r).beta := by
  obtain ⟨o, t⟩ := r
  obtain ⟨ha, hb⟩ := hc
  have hwt := hw t
  cases o with
  | success =>
    unfold applyReview update
    simp only [Outcome.recognized]
    split_ifs <;> constructor <;> dsimp <;> linarith
  | failure =>
    unfold applyReview update
    simp only [Outcome.recognized]
    split_ifs <;> constructor <;> dsimp <;> linarith
  | unrecognized =>
    unfold applyReview update
    simp only [Outcome.recognized]
    exact ⟨ha, hb⟩

/-- Claim C1: for every card and every sequence of MemoryModel.update calls
with recognized outcomes, the card's Beta posterior parameters satisfy
alpha ≥ 1 and beta ≥ 1 after each update — the uninformative prior floor is
an invariant preserved by every update (the recency weight being
nonnegative, as any increment scale must be). -/
theorem memoryModel_prior_floor_invariant (cfg : MMConfig)
    (hw : ∀ t : ℝ, 0 ≤ cfg.recencyWeight t) (c : Card)
    (hc : 1 ≤ c.alpha ∧ 1 ≤ c.beta) (rs : List (Outcome × ℝ))
    (hrec : ∀ r ∈ rs, (r.1).recognized = true) :
    1 ≤ (applyReviews cfg c rs).alpha ∧ 1 ≤ (applyReviews cfg c rs).beta := by
  induction rs generalizing c with
  | nil => simpa [applyReviews] using hc
  | cons r rest ih =>
    have hstep := applyReview_floor cfg hw c hc r
    have heq : applyReviews cfg c (r :: rest) = applyReviews cfg (applyReview cfg c r) rest := rfl
    rw [heq]
    exact ih (applyReview cfg c r) hstep fun x hx => hrec x (List.mem_cons_of_mem r hx)

/-- Witness for claim C1: a fresh card reviewed successfully then
unsuccessfully under the unit recency weight keeps both floor bounds. -/
theorem memoryModel_prior_floor_invariant_witness :
    1 ≤ (applyReviews ⟨fun _ => 1, fun c1 _ => c1.decayRate⟩ ⟨1, 1, 1⟩
          [(Outcome.success, 1), (Outcome.failure, 2)]).alpha
      ∧ 1 ≤ (applyReviews ⟨fun _ => 1, fun c1 _ => c1.decayRate⟩ ⟨1, 1, 1⟩
          [(Outcome.success, 1), (Outcome.failure, 2)]).beta :=
  memoryModel_prior_floor_invariant _ (fun _ => by norm_num) _ ⟨le_refl 1, le_refl 1⟩ _
    (by
      intro r hr
      cases hr with
      | head => rfl
      | tail _ h2 =>
        cases h2 with
        | head => rfl
        | tail _ h3 => cases h3)

/-- Claim C2: for every card whose posterior mean exceeds the target
probability and whose unclamped inverted interval
ln(posterior_mean / target_p) / decay_rate lies within the configured
interval bounds, evaluating the recall probability at the scheduled
next_interval gives back the target probability within a 1e-6 tolerance
(the closed-form inversion round-trips, in fact exactly). -/
theorem scheduler_round_trip (cfg : SchedConfig) (c : Card)
    (htp : 0 < cfg.target_p) (hpm : cfg.target_p < posteriorMean c)
    (hd : 0 < c.decayRate)
    (hmn : cfg.min_interval ≤ Real.log (posteriorMean c / cfg.target_p) / c.decayRate)
    (hmx : Real.log (posteriorMean c / cfg.target_p) / c.decayRate ≤ cfg.max_interval) :
    |recall_probability c (next_interval cfg c) - cfg.target_p| ≤ 1 / 1000000 := by
  have hpm0 : 0 < posteriorMean c := htp.trans hpm
  have hdiv : 0 < posteriorMean c / cfg.target_p := div_pos hpm0 htp
  have hd0 : c.decayRate ≠ 0 := ne_of_gt hd
  have hni : next_interval cfg c
      = Real.log (posteriorMean c / cfg.target_p) / c.decayRate := by
    unfold next_interval
    rw [if_neg (not_le.mpr hpm), min_eq_right hmx, max_eq_right hmn]
  have harg : -c.decayRate * (Real.log (posteriorMean c / cfg.target_p) / c.decayRate)
      = -Real.log (posteriorMean c / cfg.target_p) := by
    field_simp
    ring
  have hrp : recall_probability c (next_interval cfg c) = cfg.target_p := by
    rw [hni]
    unfold recall_probability
    rw [harg, Real.exp_neg, Real.exp_log hdiv, inv_div]
    rw [div_eq_mul_inv, ← mul_assoc]
    rw [mul_comm (posteriorMean c) cfg.target_p, mul_assoc]
    rw [mul_inv_cancel₀ (ne_of_gt hpm0), mul_one]
  rw [hrp]
  norm_num

/-- Witness for claim C2: a card with posterior mean 0.9, decay rate 1 and
target 0.8, whose inverted interval ln(9/8) lies inside the bounds 0 and
100. -/
theorem scheduler_round_trip_witness :
    |recall_probability ⟨9, 1, 1⟩ (next_interval ⟨4/5, 0, 100⟩ ⟨9, 1, 1⟩) - (4/5 : ℝ)|
      ≤ 1 / 1000000 := by
  have hpm : posteriorMean ⟨9, 1, 1⟩ = 9 / 10 := by norm_num [posteriorMean]
  have harg : posteriorMean ⟨9, 1, 1⟩ / ((4 : ℝ)/5) = 9 / 8 := by rw [hpm]; norm_num
  refine scheduler_round_trip ⟨4/5, 0, 100⟩ ⟨9, 1, 1⟩ (by norm_num) ?_ (by norm_num) ?_ ?_
  · rw [hpm]; norm_num
  · rw [show ((⟨4/5, 0, 100⟩ : SchedConfig).min_interval : ℝ) = 0 from rfl]
    rw [show ((⟨9, 1, 1⟩ : Card).decayRate : ℝ) = 1 from rfl]
    rw [div_one, harg]
    exact Real.log_nonneg (by norm_num)
  · rw [show ((⟨9, 1, 1⟩ : Card).decayRate : ℝ) = 1 from rfl]
    rw [div_one, harg]
    have hlog : Real.log (9 / 8) ≤ 9 / 8 - 1 :=
      Real.log_le_sub_one_of_pos (by norm_num)
    have : ((⟨4/5, 0, 100⟩ : SchedConfig).max_interval : ℝ) = 100 := rfl
    rw [this]
    linarith

/-- Recording a review always prepends the event to the session log. -/
lemma reviewStep_events (cfg : SessConfig) (s : Session) (r : Review) (t : ℚ) :
    (reviewStep cfg s r t).events = r :: s.events := by
  unfold reviewStep
  cases s.state <;> dsimp only <;> split_ifs <;> rfl

/-- Recording a review on an in-session state leaves the session in an
in-session state (never Idle or Ended). -/
lemma reviewStep_activeish (cfg : SessConfig) (s : Session) (r : Review) (t : ℚ)
    (h : s.state.activeish) : (reviewStep cfg s r t).state.activeish := by
  unfold SessState.activeish at h ⊢
  unfold reviewStep
  rcases h with h | h | h <;> rw [h] <;> dsimp only <;> split_ifs <;> simp

/-- When the fatigue trigger fires on the extended event log, recording the
review from any in-session state lands in RescueMode: Active and
BreakSuggested transition by the trigger, RescueMode either keeps consuming
its cooldown or re-triggers at re-evaluation. -/
lemma reviewStep_triggered (cfg : SessConfig) (s : Session) (r : Review) (t : ℚ)
    (h : s.state.activeish)
    (ht : fatigueTriggered cfg (r :: s.events) = true) :
    (reviewStep cfg s r t).state = .RescueMode := by
  unfold SessState.activeish at h
  unfold reviewStep
  rcases h with h | h | h <;> rw [h] <;> dsimp only <;> split_ifs <;> rfl

/-- submit_review accepts a review in every in-session state and performs
the reviewStep update. -/
lemma submit_review_activeish (cfg : SessConfig) (s : Session) (r : Review) (t : ℚ)
    (h : s.state.activeish) :
    submit_review cfg s r t = .ok (reviewStep cfg s r t) := by
  unfold SessState.activeish at h
  have hne : ¬(s.state = .Ended ∨ s.state = .Idle) := by
    rintro (he | he) <;> rcases h with h | h | h <;> rw [h] at he <;>
      exact SessState.noConfusion he
  unfold submit_review
  rw [if_neg hne]

/-- submit_review on an Ended session fails with SessionStateError. -/
lemma submit_review_ended (cfg : SessConfig) (s : Session) (r : Review) (t : ℚ)
    (h : s.state = .Ended) :
    submit_review cfg s r t = .error .SessionStateError := by
  unfold submit_review
  rw [if_pos (Or.inl h)]

/-- A window of five failed reviews with latency z-scores all above the
threshold fires the fatigue trigger under the default window size of five
and any positive accuracy threshold. -/
lemma fatigue_five_fails (cfg : SessConfig) (hws : cfg.windowSize = 5)
    (hacc : 0 < cfg.accThreshold) (r1 r2 r3 r4 r5 : Review) (rest : List Review)
    (ho1 : r1.outcome = false) (ho2 : r2.outcome = false) (ho3 : r3.outcome = false)
    (ho4 : r4.outcome = false) (ho5 : r5.outcome = false)
    (hz1 : cfg.zThreshold < r1.latencyZ) (hz2 : cfg.zThreshold < r2.latencyZ)
    (hz3 : cfg.zThreshold < r3.latencyZ) (hz4 : cfg.zThreshold < r4.latencyZ)
    (hz5 : cfg.zThreshold < r5.latencyZ) :
    fatigueTriggered cfg (r5 :: r4 :: r3 :: r2 :: r1 :: rest) = true := by
  have htake : (r5 :: r4 :: r3 :: r2 :: r1 :: rest).take 5 = [r5, r4, r3, r2, r1] := rfl
  unfold fatigueTriggered
  rw [hws, htake]
  simp only [Bool.and_eq_true, decide_eq_true_eq]
  refine ⟨⟨by simp, ?_⟩, ?_⟩
  · unfold windowAccuracy
    simp [List.filter, ho1, ho2, ho3, ho4, ho5]
    exact hacc
  · unfold windowAvgZ
    simp only [List.map, List.sum_cons, List.sum_nil, List.length_cons, List.length_nil]
    rw [lt_div_iff₀ (by norm_num)]
    push_cast
    linarith

/-- Claim C5: for every session in the Active state, a scripted sequence of
five consecutive reviews, all failed and all with latency z-scores above
the threshold, deterministically drives the session into RescueMode by the
fifth review, under the default window of five reviews and a positive
accuracy threshold. -/
theorem session_rescue_by_fifth_review (cfg : SessConfig) (s : Session)
    (hws : cfg.windowSize = 5) (hacc : 0 < cfg.accThreshold)
    (hs : s.state = .Active)
    (r1 r2 r3 r4 r5 : Review) (t1 t2 t3 t4 t5 : ℚ)
    (ho1 : r1.outcome = false) (ho2 : r2.outcome = false) (ho3 : r3.outcome = false)
    (ho4 : r4.outcome = false) (ho5 : r5.outcome = false)
    (hz1 : cfg.zThreshold < r1.latencyZ) (hz2 : cfg.zThreshold < r2.latencyZ)
    (hz3 : cfg.zThreshold < r3.latencyZ) (hz4 : cfg.zThreshold < r4.latencyZ)
    (hz5 : cfg.zThreshold < r5.latencyZ) :
    ∃ sOut,
      submitAll cfg s [(r1, t1), (r2, t2), (r3, t3), (r4, t4), (r5, t5)] = .ok sOut
        ∧ sOut.state = .RescueMode := by
  have ha0 : s.state.activeish := Or.inl hs
  have ha1 := reviewStep_activeish cfg s r1 t1 ha0
  have ha2 := reviewStep_activeish cfg (reviewStep cfg s r1 t1) r2 t2 ha1
  have ha3 := reviewStep_activeish cfg
    (reviewStep cfg (reviewStep cfg s r1 t1) r2 t2) r3 t3 ha2
  have ha4 := reviewStep_activeish cfg
    (reviewStep cfg (reviewStep cfg (reviewStep cfg s r1 t1) r2 t2) r3 t3) r4 t4 ha3
  have hev : (reviewStep cfg (reviewStep cfg (reviewStep cfg
      (reviewStep cfg s r1 t1) r2 t2) r3 t3) r4 t4).events
      = r4 :: r3 :: r2 :: r1 :: s.events := by
    rw [reviewStep_events, reviewStep_events, reviewStep_events, reviewStep_events]
  have htrig : fatigueTriggered cfg (r5 :: (reviewStep cfg (reviewStep cfg
      (reviewStep cfg (reviewStep cfg s r1 t1) r2 t2) r3 t3) r4 t4).events) = true := by
    rw [hev]
    exact fatigue_five_fails cfg hws hacc r1 r2 r3 r4 r5 s.events
      ho1 ho2 ho3 ho4 ho5 hz1 hz2 hz3 hz4 hz5
  have h5 := reviewStep_triggered cfg (reviewStep cfg (reviewStep cfg
      (reviewStep cfg (reviewStep cfg s r1 t1) r2 t2) r3 t3) r4 t4) r5 t5 ha4 htrig
  refine ⟨_, ?_, h5⟩
  rw [submitAll, submit_review_activeish cfg s r1 t1 ha0]
  rw [show ∀ x : Session, (Except.ok x : Except SessError Session) >>= (fun s1 =>
    submitAll cfg s1 [(r2, t2), (r3, t3), (r4, t4), (r5, t5)]) = submitAll cfg x
    [(r2, t2), (r3, t3), (r4, t4), (r5, t5)] from fun _ => rfl]
  rw [submitAll, submit_review_activeish cfg _ r2 t2 ha1]
  rw [show ∀ x : Session, (Except.ok x : Except SessError Session) >>= (fun s1 =>
    submitAll cfg s1 [(r3, t3), (r4, t4), (r5, t5)]) = submitAll cfg x
    [(r3, t3), (r4, t4), (r5, t5)] from fun _ => rfl]
  rw [submitAll, submit_review_activeish cfg _ r3 t3 ha2]
  rw [show ∀ x : Session, (Except.ok x : Except SessError Session) >>= (fun s1 =>
    submitAll cfg s1 [(r4, t4), (r5, t5)]) = submitAll cfg x [(r4, t4), (r5, t5)]
    from fun _ => rfl]
  rw [submitAll, submit_review_activeish cfg _ r4 t4 ha3]
  rw [show ∀ x : Session, (Except.ok x : Except SessError Session) >>= (fun s1 =>
    submitAll cfg s1 [(r5, t5)]) = submitAll cfg x [(r5, t5)] from fun _ => rfl]
  rw [submitAll, submit_review_activeish cfg _ r5 t5 ha4]
  rfl

/-- Witness for claim C5: a fresh Active session fed five failed reviews
with latency z-score 2 against threshold 1 ends in RescueMode. -/
theorem session_rescue_by_fifth_review_witness :
    ∃ sOut,
      submitAll ⟨5, 1/2, 1, 3, 10⟩ ⟨.Active, [], 0, 0, none, 0, 0⟩
          [(⟨false, 2⟩, 1), (⟨false, 2⟩, 2), (⟨false, 2⟩, 3), (⟨false, 2⟩, 4),
            (⟨false, 2⟩, 5)] = .ok sOut
        ∧ sOut.state = .RescueMode :=
  session_rescue_by_fifth_review ⟨5, 1/2, 1, 3, 10⟩ ⟨.Active, [], 0, 0, none, 0, 0⟩
    rfl (by norm_num) rfl _ _ _ _ _ _ _ _ _ _
    rfl rfl rfl rfl rfl (by norm_num) (by norm_num) (by norm_num) (by norm_num)
    (by norm_num)

/-- Claim C6: a session with no review event for longer than the configured
idle duration transitions to Ended on the next status check, and every
subsequent submit_review call on it fails with SessionStateError. -/
theorem idle_timeout_ends_session (cfg : SessConfig) (s : Session) (now : ℚ)
    (hidle : cfg.idleTimeout < now - s.lastEventTime) :
    (checkStatus cfg s now).state = .Ended
      ∧ ∀ (r : Review) (t : ℚ),
          submit_review cfg (checkStatus cfg s now) r t = .error .SessionStateError := by
  have hst : (checkStatus cfg s now).state = .Ended := by
    unfold checkStatus
    split_ifs with h1
    · exact h1
    · rfl
  exact ⟨hst, fun r t => submit_review_ended cfg _ r t hst⟩

/-- Witness for claim C6: an Active session last touched at time 0, checked
at time 20 against an idle timeout of 10. -/
theorem idle_timeout_ends_session_witness :
    (checkStatus ⟨5, 1/2, 1, 3, 10⟩ ⟨.Active, [], 0, 0, none, 0, 0⟩ 20).state = .Ended
      ∧ ∀ (r : Review) (t : ℚ),
          submit_review ⟨5, 1/2, 1, 3, 10⟩
            (checkStatus ⟨5, 1/2, 1, 3, 10⟩ ⟨.Active, [], 0, 0, none, 0, 0⟩ 20) r t
            = .error .SessionStateError :=
  idle_timeout_ends_session ⟨5, 1/2, 1, 3, 10⟩ ⟨.Active, [], 0, 0, none, 0, 0⟩ 20
    (by norm_num)

/-- Claim C7: querying the Scheduler with an empty due set yields
NoCardsDue, and the SessionManager treats that result as a terminal,
non-error session-end condition — it returns an ok value (never an
exception) whose session is in the Ended state. -/
theorem no_cards_due_ends_session (s : Session) (now : ℚ) (hs : s.state = .Active) :
    get_next_card [] = .noCardsDue
      ∧ managerNextCard s [] now
          = .ok ({ s with state := .Ended, endTime := some now }, .noCardsDue)
      ∧ ({ s with state := .Ended, endTime := some now } : Session).state = .Ended := by
  refine ⟨rfl, ?_, rfl⟩
  unfold managerNextCard
  rw [if_neg]
  · rfl
  · rintro (h | h) <;> rw [hs] at h <;> exact SessState.noConfusion h

/-- Witness for claim C7: a concrete Active session queried with no due
cards at time 7. -/
theorem no_cards_due_ends_session_witness :
    get_next_card [] = .noCardsDue
      ∧ managerNextCard ⟨.Active, [], 0, 0, none, 0, 0⟩ [] 7
          = .ok (⟨.Ended, [], 0, 0, some 7, 0, 0⟩, .noCardsDue)
      ∧ (⟨.Ended, [], 0, 0, some 7, 0, 0⟩ : Session).state = .Ended :=
  no_cards_due_ends_session ⟨.Active, [], 0, 0, none, 0, 0⟩ 7 rfl

end BayesFlashcards
